import Mathlib

/-!
Verification of the cogserver network layer (ServerSocket.cc, WebSocket.cc).

Byte streams are modelled as `List Nat` with each element a byte value.
Blocking reads from the socket become explicit consumption from the head of
the list; a read that would block forever because the stream ended is a
`readFail` outcome (boost::asio would raise a transport error there).
`SilentException` becomes the `silent` outcome.  Data written to the socket
via `Send` is collected as a list of buffers, in order of sending.
-/

/-- Byte values of a string, one `Nat` per character. -/
def strBytes (s : String) : List Nat := s.toList.map Char.toNat

/-! ## Telnet-aware delimiter scanner (ServerSocket.cc, match_eol_or_escape) -/

/-- Body of the scan loop of `match_eol_or_escape` (ServerSocket.cc lines
205-222).  `telnet` is the value of the local variable `telnet_mode` when the
loop reaches the current byte.  Returns the number of bytes consumed (the
iterator position, one past the matched byte on success) and whether a match
was found. -/
def scanFrom (telnet : Bool) : List Nat → Nat × Bool
  | [] => (0, false)
  | c :: cs =>
    if c = 10 ∨ c = 4 ∨ ((telnet || (c == 255)) = true ∧ c ≤ 0xf0) then
      (1, true)
    else
      ((scanFrom (telnet || (c == 255)) cs).1 + 1, (scanFrom (telnet || (c == 255)) cs).2)

/-- `match_eol_or_escape` from ServerSocket.cc: one call of the match
condition.  The local `bool telnet_mode = false;` is initialized at function
entry, so the function carries no state between calls. -/
def match_eol_or_escape (l : List Nat) : Nat × Bool := scanFrom false l

/-! ## WebSocket frame decoding (WebSocket.cc) -/

/-- Consume exactly `n` bytes from the stream, as `boost::asio::read` with a
buffer of size `n` does; `none` when the stream ends first. -/
def readBytes (n : Nat) (s : List Nat) : Option (List Nat × List Nat) :=
  if n ≤ s.length then some (s.take n, s.drop n) else none

/-- Big-endian value of a byte list (what `ntohs` / `ntohl` composition
computes on the wire bytes). -/
def beNat (bs : List Nat) : Nat := bs.foldl (fun a b => a * 256 + b) 0

/-- XOR each byte at stream offset `i` with mask byte `i % 4`, which is what
the word-at-a-time XOR loop plus the trailing-byte loop of
`get_websocket_data` compute on a little-endian host. -/
def unmaskFrom (mask : List Nat) (i : Nat) : List Nat → List Nat
  | [] => []
  | b :: bs => (b ^^^ mask.getD (i % 4) 0) :: unmaskFrom mask (i + 1) bs

/-- Outcome of parsing the declared payload length. -/
inductive LenOut where
  | ok (len : Nat) (rest : List Nat)
  | silent
  | readFail
  deriving DecidableEq, Repr

/-- Outcome of `get_websocket_data`: a decoded unit plus the unread stream,
a `SilentException`, or a failed blocking read. -/
inductive WsOut where
  | ok (line rest : List Nat)
  | silent
  | readFail
  deriving DecidableEq, Repr

/-- Outcome of `get_websocket_line`: decoded unit, unread stream, and the
buffers written via `Send` (pong replies), in order. -/
inductive WsLineOut where
  | ok (line rest : List Nat) (sends : List (List Nat))
  | silent
  | readFail
  deriving DecidableEq, Repr

/-- Length parsing of `get_websocket_data` (WebSocket.cc lines 89-111):
`paybyte ≤ 125` is the length itself; 126 reads a 2-byte big-endian length;
127 reads an 8-byte big-endian length and raises `SilentException` when it
exceeds 2^40. -/
def wsParseLen (paybyte : Nat) (s : List Nat) : LenOut :=
  if paybyte = 126 then
    match s with
    | b0 :: b1 :: rest => .ok (256 * b0 + b1) rest
    | _ => .readFail
  else if paybyte = 127 then
    match s with
    | b0 :: b1 :: b2 :: b3 :: b4 :: b5 :: b6 :: b7 :: rest =>
      let lung := beNat [b0, b1, b2, b3, b4, b5, b6, b7]
      if 2 ^ 40 < lung then .silent else .ok lung rest
    | _ => .readFail
  else .ok paybyte s

/-- The tail of `get_websocket_data` (WebSocket.cc lines 113-151), entered
after the length was parsed: bail out silently when the mask bit is unset,
read the 4-byte mask, read `paylen` payload bytes, unmask them, and append a
null terminator to the returned blob. -/
def wsReadPayload (paylen : Nat) (maskbit : Bool) (s : List Nat) : WsOut :=
  if maskbit then
    match readBytes 4 s with
    | none => .readFail
    | some (mask, s1) =>
      match readBytes paylen s1 with
      | none => .readFail
      | some (data, s2) => .ok (unmaskFrom mask 0 data ++ [0]) s2
  else .silent

/-- `ServerSocket::get_websocket_data` (WebSocket.cc lines 83-152).  Reads
the mask/length byte, parses the declared length, then reads mask and
payload.  Note the 2^40 sanity check happens during length parsing, before
the mask-bit check, the mask read, and the payload read. -/
def get_websocket_data (s : List Nat) : WsOut :=
  match s with
  | [] => .readFail
  | mpay :: s1 =>
    match wsParseLen (mpay &&& 127) s1 with
    | .silent => .silent
    | .readFail => .readFail
    | .ok paylen s2 => wsReadPayload paylen ((mpay &&& 128) != 0) s2

/-- `ServerSocket::get_websocket_line` (WebSocket.cc lines 27-77), with an
explicit fuel parameter standing for the unbounded `while` loop over ping
and pong frames; any fuel at least the stream length makes the fuel bound
unreachable, since every loop iteration consumes at least one byte. -/
def get_websocket_line_fuel : Nat → List Nat → WsLineOut
  | 0, _ => .readFail
  | fuel + 1, s =>
    match s with
    | [] => .readFail
    | fop :: s1 =>
      let opcode := fop &&& 0xf
      if opcode = 9 ∨ opcode = 0xa then
        match get_websocket_data s1 with
        | .silent => .silent
        | .readFail => .readFail
        | .ok pingd s2 =>
          let paylen := pingd.length - 1
          let sends :=
            if opcode = 9 then
              [0x8a, paylen % 256] :: (if 0 < paylen then [pingd.take paylen] else [])
            else []
          match get_websocket_line_fuel fuel s2 with
          | .silent => .silent
          | .readFail => .readFail
          | .ok line s3 sends2 => .ok line s3 (sends ++ sends2)
      else if opcode = 8 then .silent
      else if opcode ≠ 1 then .silent
      else
        match get_websocket_data s1 with
        | .silent => .silent
        | .readFail => .readFail
        | .ok line s2 => .ok line s2 []

/-- Entry point for frame decoding on a finite modelled stream. -/
def get_websocket_line (s : List Nat) : WsLineOut :=
  get_websocket_line_fuel (s.length + 1) s

/-! ## WebSocket frame encoding (WebSocket.cc, send_websocket) -/

/-- `ServerSocket::send_websocket` (WebSocket.cc lines 164-198): the list of
buffers passed to `Send`, in order — one header buffer of 2, 4 or 10 bytes,
then the payload. -/
def send_websocket (cmd : List Nat) : List (List Nat) :=
  let paylen := cmd.length
  if paylen < 126 then
    [[0x81, paylen], cmd]
  else if paylen < 65536 then
    [[0x81, 126, (paylen >>> 8) &&& 0xff, paylen &&& 0xff], cmd]
  else
    [[0x81, 127,
      (paylen >>> 56) &&& 0xff, (paylen >>> 48) &&& 0xff,
      (paylen >>> 40) &&& 0xff, (paylen >>> 32) &&& 0xff,
      (paylen >>> 24) &&& 0xff, (paylen >>> 16) &&& 0xff,
      (paylen >>> 8) &&& 0xff, paylen &&& 0xff], cmd]

/-- `ServerSocket::send_websocket_pong` (WebSocket.cc lines 155-161). -/
def send_websocket_pong : List (List Nat) := [[0x8a, 0]]

/-- Client-side masking step described by the spec round-trip property:
take the two buffers produced by `send_websocket`, set the mask bit on
header byte 1, insert a 4-byte mask key, and XOR the payload with the
repeating mask.  This models the client, not server source code. -/
def client_mask_frame (mask : List Nat) (bufs : List (List Nat)) : List Nat :=
  match bufs with
  | [[b0, b1], payload] => b0 :: (b1 + 128) :: (mask ++ unmaskFrom mask 0 payload)
  | _ => []

/-! ## Base64 encoding (WebSocket.cc, base64_encode) and SHA-1 -/

/-- The 64-character alphabet indexed by `base64_encode`. -/
def b64tbl : List Char :=
  "ABCDEFGHIJKLMNOPQRSTUVWXYZabcdefghijklmnopqrstuvwxyz0123456789+/".toList

/-- The inner `while (valb >= 0)` loop of `base64_encode` (WebSocket.cc
lines 216-220): emit six bits at a time while at least six buffered bits
remain.  `fuel` is a structural bound on the iteration count; any fuel of at
least `(valb + 6).toNat` makes the bound unreachable, since `valb` drops by
6 every iteration. -/
def b64emit : Nat → Nat → Int → List Char → Int × List Char
  | 0, _, valb, out => (valb, out)
  | fuel + 1, val, valb, out =>
    if 0 ≤ valb then
      b64emit fuel val (valb - 6) (out ++ [b64tbl.getD ((val >>> valb.toNat) &&& 0x3F) 'A'])
    else (valb, out)

/-- The trailing `while (out.size()%4) out.push_back('=')` padding loop of
`base64_encode` (WebSocket.cc line 223).  At most three pads are ever
appended, so fuel 4 makes the bound unreachable. -/
def b64padTo4 : Nat → List Char → List Char
  | 0, out => out
  | fuel + 1, out =>
    if out.length % 4 = 0 then out else b64padTo4 fuel (out ++ ['='])

/-- `base64_encode` (WebSocket.cc lines 205-225): the accumulator `val` is a
C `unsigned int`, hence the reduction modulo 2^32. -/
def base64_encode (buf : List Nat) : String :=
  let step := fun (acc : Nat × Int × List Char) (c : Nat) =>
    let val := ((acc.1 <<< 8) + c) % 4294967296
    let r := b64emit (acc.2.1 + 8 + 6).toNat val (acc.2.1 + 8) acc.2.2
    (val, r.1, r.2)
  let fin := buf.foldl step (0, -6, [])
  let out :=
    if fin.2.1 > -6 then
      fin.2.2 ++ [b64tbl.getD ((((fin.1 <<< 8) % 4294967296) >>> (fin.2.1 + 8).toNat) &&& 0x3F) 'A']
    else fin.2.2
  String.mk (b64padTo4 4 out)

/-- Left-rotation of a 32-bit word by `k` bits. -/
def rotl (k x : Nat) : Nat := ((x <<< k) ||| (x >>> (32 - k))) % 4294967296

/-- The four big-endian bytes of a 32-bit word. -/
def be32 (n : Nat) : List Nat :=
  [(n >>> 24) &&& 255, (n >>> 16) &&& 255, (n >>> 8) &&& 255, n &&& 255]

/-- SHA-1 padding: append 0x80, zero-fill to 56 mod 64, then the bit length
as an 8-byte big-endian value. -/
def sha1Pad (msg : List Nat) : List Nat :=
  let l := msg.length
  let z := (119 - l % 64) % 64
  let bits := 8 * l
  msg ++ [0x80] ++ List.replicate z 0 ++
    [(bits >>> 56) &&& 255, (bits >>> 48) &&& 255, (bits >>> 40) &&& 255,
     (bits >>> 32) &&& 255, (bits >>> 24) &&& 255, (bits >>> 16) &&& 255,
     (bits >>> 8) &&& 255, bits &&& 255]

/-- Group bytes into big-endian 32-bit words. -/
def beWords : List Nat → List Nat
  | b0 :: b1 :: b2 :: b3 :: rest => (((b0 * 256 + b1) * 256 + b2) * 256 + b3) :: beWords rest
  | _ => []

/-- Split a byte list into 64-byte blocks; `fuel` bounds the number of
blocks and is unreachable for any fuel of at least the list length. -/
def blocks64 : Nat → List Nat → List (List Nat)
  | 0, _ => []
  | fuel + 1, l =>
    match l with
    | [] => []
    | _ => l.take 64 :: blocks64 fuel (l.drop 64)

/-- Extend the 16-word message schedule by one word. -/
def sha1ExtendStep (w : List Nat) : List Nat :=
  let n := w.length
  w ++ [rotl 1 (w.getD (n - 3) 0 ^^^ w.getD (n - 8) 0 ^^^ w.getD (n - 14) 0 ^^^ w.getD (n - 16) 0)]

/-- Apply `sha1ExtendStep` 64 times, taking the schedule from 16 to 80
words. -/
def sha1Extend : Nat → List Nat → List Nat
  | 0, w => w
  | k + 1, w => sha1Extend k (sha1ExtendStep w)

/-- One SHA-1 compression round at index `i`. -/
def sha1Round (i : Nat) (st : Nat × Nat × Nat × Nat × Nat) (wi : Nat) :
    Nat × Nat × Nat × Nat × Nat :=
  let a := st.1; let b := st.2.1; let c := st.2.2.1; let d := st.2.2.2.1; let e := st.2.2.2.2
  let fk :=
    if i < 20 then ((b &&& c) ||| ((b ^^^ 4294967295) &&& d), 0x5A827999)
    else if i < 40 then (b ^^^ c ^^^ d, 0x6ED9EBA1)
    else if i < 60 then ((b &&& c) ||| (b &&& d) ||| (c &&& d), 0x8F1BBCDC)
    else (b ^^^ c ^^^ d, 0xCA62C1D6)
  let temp := (rotl 5 a + fk.1 + e + fk.2 + wi) % 4294967296
  (temp, a, rotl 30 b, c, d)

/-- Run the 80 compression rounds over the message schedule. -/
def sha1Rounds (i : Nat) (st : Nat × Nat × Nat × Nat × Nat) :
    List Nat → Nat × Nat × Nat × Nat × Nat
  | [] => st
  | wi :: ws => sha1Rounds (i + 1) (sha1Round i st wi) ws

/-- Process one 64-byte block. -/
def sha1Block (h : Nat × Nat × Nat × Nat × Nat) (block : List Nat) :
    Nat × Nat × Nat × Nat × Nat :=
  let w := sha1Extend 64 (beWords block)
  let r := sha1Rounds 0 h w
  ((h.1 + r.1) % 4294967296, (h.2.1 + r.2.1) % 4294967296,
   (h.2.2.1 + r.2.2.1) % 4294967296, (h.2.2.2.1 + r.2.2.2.1) % 4294967296,
   (h.2.2.2.2 + r.2.2.2.2) % 4294967296)

/-- SHA-1 digest of a byte list, as the 20 digest bytes.  This models the
OpenSSL `SHA1` call of `HandshakeLine` per FIPS 180 — the one piece of the
accept-key computation that lives outside this repository. -/
def sha1 (msg : List Nat) : List Nat :=
  let h := (blocks64 (sha1Pad msg).length (sha1Pad msg)).foldl sha1Block
    (0x67452301, 0xEFCDAB89, 0x98BADCFE, 0x10325476, 0xC3D2E1F0)
  be32 h.1 ++ be32 h.2.1 ++ be32 h.2.2.1 ++ be32 h.2.2.2.1 ++ be32 h.2.2.2.2

/-- The accept-key computation of `ServerSocket::HandshakeLine`
(WebSocket.cc lines 286-293): append the fixed GUID to the received
`Sec-WebSocket-Key` value, hash with SHA-1, and base64-encode the 20 digest
bytes. -/
def computeAccept (webkey : String) : String :=
  base64_encode (sha1 (strBytes (webkey ++ "258EAFA5-E914-47DA-95CA-C5AB0DC85B11")))

/-- The full `101 Switching Protocols` response assembled by
`HandshakeLine` (WebSocket.cc lines 295-303). -/
def handshake_response (webkey : String) : String :=
  "HTTP/1.1 101 Switching Protocols\r\nUpgrade: websocket\r\nConnection: Upgrade\r\nSec-WebSocket-Accept: "
    ++ computeAccept webkey ++ "\r\n\r\n"

/-! ## Read-loop error handling (ServerSocket.cc, handle_connection) -/

/-- Transport errors that `boost::asio::read_until` can raise into the
`catch` block of `handle_connection`; `other` covers every error code that
is none of the three named ones. -/
inductive TransportError where
  | eof
  | connection_reset
  | not_connected
  | other (code : Nat)
  deriving DecidableEq, Repr

/-- What the read loop does after the caught error. -/
inductive LoopDisposition where
  | exitLoop
  | continueLoop
  deriving DecidableEq, Repr

/-- The `catch` block of `ServerSocket::handle_connection` (ServerSocket.cc
lines 254-265): the loop disposition, and whether an error-level log line
was emitted.  The three benign codes `break` out of the `while (true)`
loop; every other error is logged via `logger().error` and control falls
through to the next loop iteration — there is no `break` on that path. -/
def handle_read_error : TransportError → LoopDisposition × Bool
  | .eof => (.exitLoop, false)
  | .connection_reset => (.exitLoop, false)
  | .not_connected => (.exitLoop, false)
  | .other _ => (.continueLoop, true)

/-! ## Connection registry (ServerSocket.cc, add_sock / rem_sock) -/

/-- Registry lifecycle events: `add` fires at the end of the `ServerSocket`
constructor (ServerSocket.cc line 86), `rem` at the end of the destructor
(line 97). -/
inductive SockEvent where
  | add (id : Nat)
  | rem (id : Nat)
  deriving DecidableEq, Repr

/-- Effect of one lifecycle event on `_sock_list` (a `std::set`, modelled
as a `Finset`). -/
def applyEvent (s : Finset Nat) : SockEvent → Finset Nat
  | .add i => insert i s
  | .rem i => s.erase i

/-- The registry contents after a sequence of lifecycle events, starting
from the empty static `_sock_list`. -/
def registryOf (tr : List SockEvent) : Finset Nat := tr.foldl applyEvent ∅

/-- `ServerSocket::display_stats` (ServerSocket.cc lines 40-57) applied to
the formatted stats rows of the live connections: emit the header line
before the first row, then one line per row. -/
def display_stats (rows : List String) : String :=
  (rows.foldl
    (fun (acc : String × Bool) row =>
      let acc2 := if acc.2 then acc else (acc.1 ++ "DATE             THREAD STATE" ++ "\n", true)
      (acc2.1 ++ row ++ "\n", acc2.2))
    ("", false)).1

/-- Lifecycle trace that creates connections `0, …, n-1` and then destroys
all of them. -/
def create_close_trace (n : Nat) : List SockEvent :=
  (List.range n).map SockEvent.add ++ (List.range n).map SockEvent.rem

/-! ## Helper lemmas -/

/-- One call of the scanner is a single forward pass: it never consumes more
bytes than it is given, and on a non-match it has consumed the whole
buffer. -/
theorem scanFrom_progress (l : List Nat) : ∀ telnet : Bool,
    (scanFrom telnet l).1 ≤ l.length ∧
    ((scanFrom telnet l).2 = false → (scanFrom telnet l).1 = l.length) := by
  induction l with
  | nil => intro t; simp [scanFrom]
  | cons c cs ih =>
    intro t
    rw [scanFrom]
    split
    · simp
    · have h := ih (t || (c == 255))
      refine ⟨by simpa using Nat.add_le_add_right h.1 1, fun hf => ?_⟩
      simp only at hf
      simp [h.2 hf]

/-- When no byte before the first line feed is 0x04 or an IAC byte, the
scanner matches exactly at the first line feed. -/
theorem scanFrom_first_lf (l1 l2 : List Nat)
    (h : ∀ b ∈ l1, b ≠ 10 ∧ b ≠ 4 ∧ b ≠ 255) :
    scanFrom false (l1 ++ 10 :: l2) = (l1.length + 1, true) := by
  induction l1 with
  | nil => simp [scanFrom]
  | cons c cs ih =>
    have hc := h c (by simp)
    have h255 : (c == 255) = false := by simp [hc.2.2]
    rw [List.cons_append, scanFrom, if_neg, h255]
    · simp only [Bool.or_false]
      rw [ih (fun b hb => h b (by simp [hb]))]
      simp [Nat.add_comm]
    · rw [h255]
      simp [hc.1, hc.2.1]

/-! ## C2 — read-loop error handling -/

/-- C2 counterexample: the claim says every non-benign transport error makes
the read loop exit; in the code the `else` branch of the catch block only
logs and does not `break`, so the loop continues. -/
theorem handle_read_error_continues_cex :
    handle_read_error (TransportError.other 0) = (LoopDisposition.continueLoop, true) ∧
    LoopDisposition.continueLoop ≠ LoopDisposition.exitLoop := by
  exact ⟨rfl, by decide⟩

/-- C2 amended: the three benign errors (eof, connection-reset,
not-connected) exit the read loop with no error-level log; every other
transport error is logged at error level but the loop continues — the read
is retried, the connection is not torn down by this path. -/
theorem handle_read_error_amended :
    handle_read_error TransportError.eof = (LoopDisposition.exitLoop, false) ∧
    handle_read_error TransportError.connection_reset = (LoopDisposition.exitLoop, false) ∧
    handle_read_error TransportError.not_connected = (LoopDisposition.exitLoop, false) ∧
    ∀ c : Nat, handle_read_error (TransportError.other c) = (LoopDisposition.continueLoop, true) :=
  ⟨rfl, rfl, rfl, fun _ => rfl⟩

/-- Closed instance of `handle_read_error_amended`. -/
theorem handle_read_error_amended_witness :
    handle_read_error (TransportError.other 42) = (LoopDisposition.continueLoop, true) :=
  handle_read_error_amended.2.2.2 42

/-! ## C3 — scanner state across calls -/

/-- C3 counterexample: a call that ends right after an IAC byte reports no
match, and a following call that starts with the byte 0x05 (≤ 0xF0) also
reports no match — the "just past an IAC" boolean is a local variable and
does not survive between calls. -/
theorem match_eol_cross_call_cex :
    match_eol_or_escape [255] = (1, false) ∧
    match_eol_or_escape [5] = (1, false) := by
  decide

/-- C3 amended: each call to the scanner initializes the IAC boolean to
false, so IAC detection does not carry across call boundaries: a call
beginning with a byte ≤ 0xF0 that is neither LF nor EOT reports no match
even when the previous call ended just past an IAC byte.  Each call is a
single forward scan over the bytes it is given: it consumes at most the
buffer, and consumes it entirely when it reports no match. -/
theorem match_eol_cross_call_amended :
    (∀ l : List Nat, (match_eol_or_escape l).1 ≤ l.length ∧
      ((match_eol_or_escape l).2 = false → (match_eol_or_escape l).1 = l.length)) ∧
    match_eol_or_escape [255] = (1, false) ∧
    (∀ b : Nat, b ≤ 240 → b ≠ 10 → b ≠ 4 → match_eol_or_escape [b] = (1, false)) := by
  refine ⟨fun l => scanFrom_progress l false, by decide, fun b hb h10 h4 => ?_⟩
  have h255 : (b == 255) = false := by simp; omega
  rw [match_eol_or_escape, scanFrom, if_neg]
  · simp [scanFrom]
  · rw [h255]
    simp [h10, h4]

/-- Closed instance of `match_eol_cross_call_amended`. -/
theorem match_eol_cross_call_amended_witness :
    (match_eol_or_escape [65, 66]).1 ≤ 2 ∧ match_eol_or_escape [5] = (1, false) :=
  ⟨(match_eol_cross_call_amended.1 [65, 66]).1,
   match_eol_cross_call_amended.2.2 5 (by decide) (by decide) (by decide)⟩

/-! ## C6 — scanner match positions within one call -/

/-- C6 counterexample: the byte sequence [0x04, 0x0A] contains a line feed
whose first occurrence is at index 1, but the scanner matches at the 0x04
byte (position 1 consumed), not at the first LF (which would be 2 bytes
consumed). -/
theorem match_eol_positions_cex :
    match_eol_or_escape [4, 10] = (1, true) ∧
    match_eol_or_escape [4, 10] ≠ (List.indexOf 10 [4, 10] + 1, true) := by
  decide

/-- C6 amended: the scanner matches at the first LF for any buffer in which
no byte before that LF is 0x04 or an IAC byte (bytes after the LF are
irrelevant); a lone 0x04 matches immediately; [0xFF, 0x05] matches at the
second byte; [0xFF, 0xFF] does not match until a byte ≤ 0xF0 follows. -/
theorem match_eol_positions_amended :
    (∀ l1 l2 : List Nat, (∀ b ∈ l1, b ≠ 10 ∧ b ≠ 4 ∧ b ≠ 255) →
      match_eol_or_escape (l1 ++ 10 :: l2) = (l1.length + 1, true)) ∧
    match_eol_or_escape [4] = (1, true) ∧
    match_eol_or_escape [255, 5] = (2, true) ∧
    match_eol_or_escape [255, 255] = (2, false) ∧
    match_eol_or_escape [255, 255, 5] = (3, true) := by
  exact ⟨fun l1 l2 h => scanFrom_first_lf l1 l2 h, by decide, by decide, by decide, by decide⟩

/-- Closed instance of `match_eol_positions_amended`: the LF in
[0x61, 0x62, 0x0A, 0x63] is matched at position 3, regardless of the bytes
after it. -/
theorem match_eol_positions_amended_witness :
    match_eol_or_escape [97, 98, 10, 99] = (3, true) := by
  have h := match_eol_positions_amended.1 [97, 98] [99] (by decide)
  simpa using h

/-! ## C8 — outbound length-encoding boundaries -/

/-- C8: a 125-byte payload takes the 2-byte header with the 1-byte length;
a 126-byte payload takes the 4-byte header with the 2-byte big-endian
extended length; a 65536-byte payload takes the 10-byte header with the
8-byte big-endian extended length.  In each case header byte 0 is 0x81 and
header byte 1 is below 0x80, so no mask bit is set and no mask key is sent. -/
theorem send_websocket_length_boundaries (c1 c2 c3 : List Nat)
    (h1 : c1.length = 125) (h2 : c2.length = 126) (h3 : c3.length = 65536) :
    send_websocket c1 = [[0x81, 125], c1] ∧
    send_websocket c2 = [[0x81, 126, 0, 126], c2] ∧
    send_websocket c3 = [[0x81, 127, 0, 0, 0, 0, 0, 1, 0, 0], c3] := by
  refine ⟨?_, ?_, ?_⟩ <;> simp [send_websocket, h1, h2, h3] <;> decide

/-- Closed instance of `send_websocket_length_boundaries` on replicated
payloads of sizes 125, 126 and 65536. -/
theorem send_websocket_length_boundaries_witness :
    send_websocket (List.replicate 125 97) = [[0x81, 125], List.replicate 125 97] ∧
    send_websocket (List.replicate 126 97) = [[0x81, 126, 0, 126], List.replicate 126 97] ∧
    send_websocket (List.replicate 65536 97) =
      [[0x81, 127, 0, 0, 0, 0, 0, 1, 0, 0], List.replicate 65536 97] :=
  send_websocket_length_boundaries _ _ _
    (List.length_replicate 125 97) (List.length_replicate 126 97) (List.length_replicate 65536 97)

/-! ## C4 — declared-length sanity ceiling -/

/-- C4: with length code 127 the eight following bytes are read as a
big-endian length; a value above 2^40 raises the silent-termination signal
with nothing further consumed — in particular the result is `silent` for
every continuation of the stream, including the empty one, so neither the
mask key nor any payload byte is read and no buffer is sized.  A value of
at most 2^40 proceeds to the mask/payload stage.  A length code of at most
125 is the payload length itself, and 126 reads a 2-byte big-endian
extended length. -/
theorem websocket_declared_length_guard :
    (∀ mpay b0 b1 b2 b3 b4 b5 b6 b7 : Nat, ∀ rest : List Nat,
      mpay &&& 127 = 127 → 2 ^ 40 < beNat [b0, b1, b2, b3, b4, b5, b6, b7] →
      get_websocket_data (mpay :: b0 :: b1 :: b2 :: b3 :: b4 :: b5 :: b6 :: b7 :: rest) =
        WsOut.silent) ∧
    (∀ mpay b0 b1 b2 b3 b4 b5 b6 b7 : Nat, ∀ rest : List Nat,
      mpay &&& 127 = 127 → beNat [b0, b1, b2, b3, b4, b5, b6, b7] ≤ 2 ^ 40 →
      get_websocket_data (mpay :: b0 :: b1 :: b2 :: b3 :: b4 :: b5 :: b6 :: b7 :: rest) =
        wsReadPayload (beNat [b0, b1, b2, b3, b4, b5, b6, b7]) ((mpay &&& 128) != 0) rest) ∧
    (∀ mpay : Nat, ∀ rest : List Nat, mpay &&& 127 ≤ 125 →
      get_websocket_data (mpay :: rest) =
        wsReadPayload (mpay &&& 127) ((mpay &&& 128) != 0) rest) ∧
    (∀ mpay b0 b1 : Nat, ∀ rest : List Nat, mpay &&& 127 = 126 →
      get_websocket_data (mpay :: b0 :: b1 :: rest) =
        wsReadPayload (256 * b0 + b1) ((mpay &&& 128) != 0) rest) := by
  refine ⟨?_, ?_, ?_, ?_⟩
  · intro mpay b0 b1 b2 b3 b4 b5 b6 b7 rest h127 hbig
    have hbig2 : (1099511627776 : Nat) < beNat [b0, b1, b2, b3, b4, b5, b6, b7] := hbig
    simp [get_websocket_data, wsParseLen, h127, hbig2]
  · intro mpay b0 b1 b2 b3 b4 b5 b6 b7 rest h127 hsmall
    have hsmall2 : ¬ (1099511627776 : Nat) < beNat [b0, b1, b2, b3, b4, b5, b6, b7] :=
      Nat.not_lt.mpr hsmall
    simp [get_websocket_data, wsParseLen, h127, hsmall2]
  · intro mpay rest hle
    have h126 : ¬ mpay &&& 127 = 126 := by omega
    have h127 : ¬ mpay &&& 127 = 127 := by omega
    simp [get_websocket_data, wsParseLen, h126, h127]
  · intro mpay b0 b1 rest h126
    simp [get_websocket_data, wsParseLen, h126]

/-- Closed instance of `websocket_declared_length_guard`: a declared length
of 2^56 (bytes 01 00 00 00 00 00 00 00) is rejected silently even though
the stream ends right after the length bytes, while a declared length of
exactly 2^40 proceeds to the mask/payload stage. -/
theorem websocket_declared_length_guard_witness :
    get_websocket_data [255, 1, 0, 0, 0, 0, 0, 0, 0] = WsOut.silent ∧
    get_websocket_data [255, 0, 0, 1, 0, 0, 0, 0, 0] =
      wsReadPayload (2 ^ 40) true [] ∧
    get_websocket_data [133, 1, 2, 3, 4, 6] = wsReadPayload 5 true [1, 2, 3, 4, 6] ∧
    get_websocket_data [254, 1, 0, 9, 9, 9, 9] = wsReadPayload 256 true [9, 9, 9, 9] := by
  refine ⟨?_, ?_, ?_, ?_⟩
  · exact websocket_declared_length_guard.1 255 1 0 0 0 0 0 0 0 [] (by decide) (by decide)
  · have h := websocket_declared_length_guard.2.1 255 0 0 1 0 0 0 0 0 [] (by decide) (by decide)
    simpa using h
  · have h := websocket_declared_length_guard.2.2.1 133 [1, 2, 3, 4, 6] (by decide)
    simpa using h
  · have h := websocket_declared_length_guard.2.2.2 254 1 0 [9, 9, 9, 9] (by decide)
    simpa using h

/-! ## C5 — handshake accept-key vector -/

set_option maxRecDepth 100000 in
/-- C5: the accept key is base64(sha1(key + "258EAFA5-E914-47DA-95CA-C5AB0DC85B11"));
for the key "dGhlIHNhbXBsZSBub25jZQ==" the value placed in the 101
Switching Protocols response is exactly "s3pPLMBiTxaQ9kYGzzhZRbK+xOo=". -/
theorem handshake_accept_vector :
    computeAccept "dGhlIHNhbXBsZSBub25jZQ==" = "s3pPLMBiTxaQ9kYGzzhZRbK+xOo=" ∧
    handshake_response "dGhlIHNhbXBsZSBub25jZQ==" =
      "HTTP/1.1 101 Switching Protocols\r\nUpgrade: websocket\r\nConnection: Upgrade\r\nSec-WebSocket-Accept: s3pPLMBiTxaQ9kYGzzhZRbK+xOo=\r\n\r\n" := by
  constructor
  · decide
  · decide

/-! ## C1 — frame round trip for "hello" -/

/-- C1 counterexample: encoding "hello", client-masking it (mask
0x12 0x34 0x56 0x78), and decoding does not give back the 5-byte string
"hello" — the decode path appends a null terminator, producing 6 bytes. -/
theorem ws_roundtrip_hello_cex :
    get_websocket_line
        (client_mask_frame [18, 52, 86, 120] (send_websocket (strBytes "hello"))) =
      WsLineOut.ok (strBytes "hello" ++ [0]) [] [] ∧
    strBytes "hello" ++ [0] ≠ strBytes "hello" := by
  decide

/-- C1 amended: for every 4-byte client mask, encoding "hello" with
`send_websocket`, masking client-side, and decoding yields the bytes of
"hello" with exactly one appended 0x00 byte (6 bytes in total, the first 5
being "hello"), with the stream fully consumed and nothing sent back. -/
theorem ws_roundtrip_hello_amended (m0 m1 m2 m3 : Nat) :
    get_websocket_line (client_mask_frame [m0, m1, m2, m3] (send_websocket (strBytes "hello"))) =
      WsLineOut.ok (strBytes "hello" ++ [0]) [] [] := by
  have hs : strBytes "hello" = [104, 101, 108, 108, 111] := by decide
  have h1 : (129 : Nat) &&& 15 = 1 := by decide
  have h2 : (133 : Nat) &&& 127 = 5 := by decide
  have h3 : (133 : Nat) &&& 128 = 128 := by decide
  rw [hs]
  simp [get_websocket_line, client_mask_frame, send_websocket, get_websocket_line_fuel,
        get_websocket_data, wsParseLen, wsReadPayload, readBytes, unmaskFrom,
        h1, h2, h3, Nat.xor_cancel_right]

/-- Closed instance of `ws_roundtrip_hello_amended` at the mask
0xA1 0xB2 0xC3 0xD4. -/
theorem ws_roundtrip_hello_amended_witness :
    get_websocket_line
        (client_mask_frame [161, 178, 195, 212] (send_websocket (strBytes "hello"))) =
      WsLineOut.ok (strBytes "hello" ++ [0]) [] [] :=
  ws_roundtrip_hello_amended 161 178 195 212

/-! ## C7 — ping/pong transparency -/

/-- C7: when the next frame carries opcode 0x9 (ping) and its body decodes
to payload `p`, the decoder sends back a pong header 0x8A with the ping
payload length, followed by the ping payload bytes themselves when
non-empty, and then continues with the next frame: the decoded unit, the
final stream position, and any later sends are exactly those of decoding
the remaining stream — so the ping is never surfaced as a decoded unit.
When the opcode is 0xA (pong), the body is read and discarded and nothing
is sent; again the result is exactly that of decoding the remaining
stream. -/
theorem ws_ping_pong_transparent (fuel fop : Nat) (s p s2 : List Nat)
    (hdata : get_websocket_data s = WsOut.ok (p ++ [0]) s2) :
    (fop &&& 15 = 9 →
      get_websocket_line_fuel (fuel + 1) (fop :: s) =
        (match get_websocket_line_fuel fuel s2 with
         | WsLineOut.ok line s3 sends =>
             WsLineOut.ok line s3
               (([0x8a, p.length % 256] :: (if 0 < p.length then [p] else [])) ++ sends)
         | WsLineOut.silent => WsLineOut.silent
         | WsLineOut.readFail => WsLineOut.readFail)) ∧
    (fop &&& 15 = 10 →
      get_websocket_line_fuel (fuel + 1) (fop :: s) = get_websocket_line_fuel fuel s2) := by
  constructor <;> intro h <;>
    rcases hres : get_websocket_line_fuel fuel s2 with ⟨line, s3, sends⟩ | _ | _ <;>
    simp [get_websocket_line_fuel, h, hdata, hres, List.take_left]

/-- Closed instance of `ws_ping_pong_transparent`: a masked ping with
payload 0x07 followed by a masked text frame "h".  The decoder answers the
ping with pong header [0x8A, 0x01] and payload [0x07], and the decoded unit
is the text frame, not the ping; with a pong frame in place of the ping,
nothing is sent and the result is identical to decoding the rest. -/
theorem ws_ping_pong_transparent_witness :
    get_websocket_line_fuel 3 [137, 129, 1, 2, 3, 4, 6, 129, 129, 1, 2, 3, 4, 105] =
      WsLineOut.ok [104, 0] [] [[138, 1], [7]] ∧
    get_websocket_line_fuel 3 [138, 129, 1, 2, 3, 4, 6, 129, 129, 1, 2, 3, 4, 105] =
      WsLineOut.ok [104, 0] [] [] := by
  constructor
  · have h := (ws_ping_pong_transparent 2 137 [129, 1, 2, 3, 4, 6, 129, 129, 1, 2, 3, 4, 105]
      [7] [129, 129, 1, 2, 3, 4, 105] (by decide)).1 (by decide)
    rw [h]; decide
  · have h := (ws_ping_pong_transparent 2 138 [129, 1, 2, 3, 4, 6, 129, 129, 1, 2, 3, 4, 105]
      [7] [129, 129, 1, 2, 3, 4, 105] (by decide)).2 (by decide)
    rw [h]; decide

/-! ## C10 — appended null terminator on every decoded frame -/

/-- Unmasking preserves length. -/
theorem unmaskFrom_length (mask : List Nat) (i : Nat) (l : List Nat) :
    (unmaskFrom mask i l).length = l.length := by
  induction l generalizing i with
  | nil => rfl
  | cons b bs ih => simp [unmaskFrom, ih]

/-- A successful `readBytes n` returns exactly `n` bytes. -/
theorem readBytes_some_length (n : Nat) (s a b : List Nat)
    (h : readBytes n s = some (a, b)) : a.length = n := by
  unfold readBytes at h
  split at h
  · cases h
    simp [List.length_take]
    omega
  · cases h

/-- C10: every successful `get_websocket_data` decode of a frame with
declared payload length `n` returns `n + 1` bytes — the unmasked payload
followed by exactly one appended 0x00 byte: the first `n` bytes are the
unmasked payload, the final byte is the null terminator added by
`data[paylen] = 0x0`. -/
theorem ws_decode_appends_nul (s v rest : List Nat)
    (h : get_websocket_data s = WsOut.ok v rest) :
    ∃ mpay s1 n s2 mask data,
      s = mpay :: s1 ∧
      wsParseLen (mpay &&& 127) s1 = LenOut.ok n s2 ∧
      data.length = n ∧ mask.length = 4 ∧
      v = unmaskFrom mask 0 data ++ [0] ∧
      v.length = n + 1 ∧
      v.take n = unmaskFrom mask 0 data ∧
      v.getLast? = some 0 := by
  cases s with
  | nil => simp [get_websocket_data] at h
  | cons mpay s1 =>
    rw [get_websocket_data] at h
    rcases hp : wsParseLen (mpay &&& 127) s1 with ⟨n, s2⟩ | _ | _ <;> rw [hp] at h
    case silent => cases h
    case readFail => cases h
    cases hmb : (mpay &&& 128) != 0 <;> rw [hmb] at h
    case false => simp [wsReadPayload] at h
    simp only [wsReadPayload, if_true] at h
    rcases hr4 : readBytes 4 s2 with _ | ⟨mask, s3⟩ <;> simp only [hr4] at h
    case none => cases h
    rcases hrn : readBytes n s3 with _ | ⟨data, s4⟩ <;> simp only [hrn] at h
    case none => cases h
    cases h
    have hdl : data.length = n := readBytes_some_length n s3 data _ hrn
    have hml : mask.length = 4 := readBytes_some_length 4 s2 mask _ hr4
    have hul : (unmaskFrom mask 0 data).length = data.length := unmaskFrom_length mask 0 data
    refine ⟨mpay, s1, n, s2, mask, data, rfl, hp, hdl, hml, rfl, ?_, ?_, List.getLast?_concat _⟩
    · simp [hul, hdl]
    · rw [← hdl, ← hul, List.take_left]

/-- Closed instance of `ws_decode_appends_nul`: a masked frame with a
5-byte declared length decodes to 6 bytes ending in 0x00. -/
theorem ws_decode_appends_nul_witness :
    get_websocket_data [133, 1, 2, 3, 4, 10, 20, 30, 40, 50] =
      WsOut.ok [11, 22, 29, 44, 51, 0] [] ∧
    ∃ mpay s1 n s2 mask data,
      ([133, 1, 2, 3, 4, 10, 20, 30, 40, 50] : List Nat) = mpay :: s1 ∧
      wsParseLen (mpay &&& 127) s1 = LenOut.ok n s2 ∧
      data.length = n ∧ mask.length = 4 ∧
      ([11, 22, 29, 44, 51, 0] : List Nat) = unmaskFrom mask 0 data ++ [0] ∧
      ([11, 22, 29, 44, 51, 0] : List Nat).length = n + 1 ∧
      ([11, 22, 29, 44, 51, 0] : List Nat).take n = unmaskFrom mask 0 data ∧
      ([11, 22, 29, 44, 51, 0] : List Nat).getLast? = some 0 :=
  ⟨by decide,
   ws_decode_appends_nul [133, 1, 2, 3, 4, 10, 20, 30, 40, 50] [11, 22, 29, 44, 51, 0] []
     (by decide)⟩

/-! ## C9 — registry membership invariant -/

/-- A connection added by some event of the trace and never removed is in
the registry afterwards, whatever registry contents the trace started
from. -/
theorem mem_foldl_applyEvent_of_add : ∀ (tr : List SockEvent) (s : Finset Nat) (i : Nat),
    (i ∈ s ∨ SockEvent.add i ∈ tr) → SockEvent.rem i ∉ tr → i ∈ tr.foldl applyEvent s := by
  intro tr
  induction tr with
  | nil =>
    intro s i h _
    rcases h with hs | hadd
    · simpa using hs
    · simp at hadd
  | cons e tr ih =>
    intro s i h hr
    have hrne : e ≠ SockEvent.rem i := fun he => hr (by simp [he])
    have hrtr : SockEvent.rem i ∉ tr := fun hm => hr (List.mem_cons_of_mem e hm)
    rw [List.foldl_cons]
    apply ih _ _ _ hrtr
    by_cases he : e = SockEvent.add i
    · left
      rw [he]
      simp [applyEvent]
    · rcases h with hs | hadd
      · left
        cases e with
        | add j => simp [applyEvent, hs]
        | rem j =>
          have hji : i ≠ j := fun hij => hrne (by rw [hij])
          simp [applyEvent, Finset.mem_erase, hji, hs]
      · right
        rcases List.mem_cons.mp hadd with h1 | h1
        · exact absurd h1.symm he
        · exact h1

/-- A connection not in the registry and never added by the trace is not in
the registry afterwards. -/
theorem not_mem_foldl_applyEvent_of_no_add : ∀ (tr : List SockEvent) (s : Finset Nat) (i : Nat),
    i ∉ s → SockEvent.add i ∉ tr → i ∉ tr.foldl applyEvent s := by
  intro tr
  induction tr with
  | nil => intro s i hs _; simpa using hs
  | cons e tr ih =>
    intro s i hs hadd
    rw [List.foldl_cons]
    apply ih
    · cases e with
      | add j =>
        have hji : i ≠ j := fun hij => hadd (by rw [hij]; exact List.mem_cons_self _ _)
        intro hmem
        rcases Finset.mem_insert.mp hmem with h1 | h1
        · exact hji h1
        · exact hs h1
      | rem j => intro hmem; exact hs (Finset.mem_of_mem_erase hmem)
    · exact fun hm => hadd (List.mem_cons_of_mem e hm)

/-- Erasing every element of a covering list empties a finite set. -/
theorem foldl_erase_eq_empty : ∀ (l : List Nat) (s : Finset Nat),
    (∀ x ∈ s, x ∈ l) → l.foldl Finset.erase s = ∅ := by
  intro l
  induction l with
  | nil =>
    intro s h
    exact Finset.eq_empty_iff_forall_not_mem.mpr fun x hx => by simpa using h x hx
  | cons a l ih =>
    intro s h
    rw [List.foldl_cons]
    apply ih
    intro x hx
    have hxs : x ∈ s := Finset.mem_of_mem_erase hx
    have hxa : x ≠ a := Finset.ne_of_mem_erase hx
    rcases List.mem_cons.mp (h x hxs) with h1 | h1
    · exact absurd h1 hxa
    · exact h1

/-- Membership after folding insertions comes from the start set or the
inserted list. -/
theorem mem_foldl_insert : ∀ (l : List Nat) (s : Finset Nat) (i : Nat),
    i ∈ l.foldl (fun t j => insert j t) s → i ∈ s ∨ i ∈ l := by
  intro l
  induction l with
  | nil => intro s i h; left; simpa using h
  | cons a l ih =>
    intro s i h
    rw [List.foldl_cons] at h
    rcases ih _ _ h with h1 | h1
    · rcases Finset.mem_insert.mp h1 with h2 | h2
      · right; simp [h2]
      · left; exact h2
    · right; exact List.mem_cons_of_mem a h1

/-- C9: a connection is in the process-wide registry from its constructor
(`add_sock`) until its destructor (`rem_sock`) and only then: it is present
after any trace that adds it and has not removed it, absent after any trace
that never adds it, and absent after its removal event when it is not added
again.  Consequently, creating and then closing N connections (N ≥ 1)
leaves the registry empty, and the `display_stats` snapshot of that empty
registry is the empty string — not even a header row is printed. -/
theorem registry_invariant :
    (∀ (tr : List SockEvent) (i : Nat),
      SockEvent.add i ∈ tr → SockEvent.rem i ∉ tr → i ∈ registryOf tr) ∧
    (∀ (tr : List SockEvent) (i : Nat), SockEvent.add i ∉ tr → i ∉ registryOf tr) ∧
    (∀ (t1 t2 : List SockEvent) (i : Nat), SockEvent.add i ∉ t2 →
      i ∉ registryOf (t1 ++ SockEvent.rem i :: t2)) ∧
    (∀ n : Nat, 1 ≤ n →
      registryOf (create_close_trace n) = ∅ ∧
      ∀ f : Nat → String, display_stats (((registryOf (create_close_trace n)).toList).map f) = "") := by
  have hreg : ∀ n : Nat, registryOf (create_close_trace n) = ∅ := by
    intro n
    rw [registryOf, create_close_trace, List.foldl_append, List.foldl_map, List.foldl_map]
    apply foldl_erase_eq_empty
    intro x hx
    have h := mem_foldl_insert (List.range n) ∅ x (by simpa using hx)
    simpa using h
  refine ⟨?_, ?_, ?_, ?_⟩
  · intro tr i hadd hrem
    exact mem_foldl_applyEvent_of_add tr ∅ i (Or.inr hadd) hrem
  · intro tr i hadd
    exact not_mem_foldl_applyEvent_of_no_add tr ∅ i (by simp) hadd
  · intro t1 t2 i hadd
    rw [registryOf, List.foldl_append, List.foldl_cons]
    apply not_mem_foldl_applyEvent_of_no_add
    · exact Finset.not_mem_erase i _
    · exact hadd
  · intro n _
    refine ⟨hreg n, fun f => ?_⟩
    rw [hreg n, Finset.toList_empty]
    rfl

/-- Closed instance of `registry_invariant`. -/
theorem registry_invariant_witness :
    0 ∈ registryOf [SockEvent.add 0] ∧
    (5 : Nat) ∉ registryOf [SockEvent.add 0] ∧
    0 ∉ registryOf [SockEvent.add 0, SockEvent.rem 0] ∧
    registryOf (create_close_trace 2) = ∅ ∧
    display_stats (((registryOf (create_close_trace 2)).toList).map (fun _ => "row")) = "" := by
  refine ⟨?_, ?_, ?_, ?_, ?_⟩
  · exact registry_invariant.1 [SockEvent.add 0] 0 (by simp) (by simp)
  · exact registry_invariant.2.1 [SockEvent.add 0] 5 (by simp)
  · exact registry_invariant.2.2.1 [SockEvent.add 0] [] 0 (by simp)
  · exact (registry_invariant.2.2.2 2 (by norm_num)).1
  · exact (registry_invariant.2.2.2 2 (by norm_num)).2 (fun _ => "row")
